import Mathlib

/-!
Verification of the procedural model generator `scripts/gen_models.py`
(Fab Craft 3D).

Shallow embedding conventions:
* Python floats are modelled as exact rationals (`ℚ`); the claims under
  scrutiny concern exact constants, ranges and transform composition, not
  floating-point rounding.
* A rotation angle θ is represented by its pair (cos θ, sin θ) : ℚ × ℚ,
  since the builders only ever use the angle through the rotation matrix
  produced by `trimesh.transformations.rotation_matrix`.  π/2 is therefore
  the exact pair (0, 1).
* The external mesh library (`trimesh`) is, per the repository design, a
  black-box collaborator: primitive construction is modelled as a total
  constructor carrying the parameters, vertex placement of a box is the
  scaled unit cube, and the native cylinder is centred at the origin with
  its long axis along Z.  The repository's own code performs no input
  validation, and none is added here.
* Python exceptions surface as `Option` (`none` = the call raises).
-/

/-! ### Python `int(s, 16)` and `str.lstrip("#")` -/

/-- ASCII whitespace stripped by Python `int()` around the literal
(space, tab, LF, CR, VT, FF). -/
def isPySpace (c : Char) : Bool :=
  decide (c.toNat = 32 ∨ c.toNat = 9 ∨ c.toNat = 10 ∨ c.toNat = 13 ∨
    c.toNat = 11 ∨ c.toNat = 12)

/-- Hexadecimal digit, as accepted by Python `int(_, 16)`. -/
def isHexDigit (c : Char) : Bool :=
  decide ((48 ≤ c.toNat ∧ c.toNat ≤ 57) ∨ (97 ≤ c.toNat ∧ c.toNat ≤ 102) ∨
    (65 ≤ c.toNat ∧ c.toNat ≤ 70))

/-- Value of a hexadecimal digit (meaningful only when `isHexDigit`). -/
def hexVal (c : Char) : ℕ :=
  if c.toNat ≤ 57 then c.toNat - 48
  else if 97 ≤ c.toNat then c.toNat - 87
  else c.toNat - 55

def hexDigitVal? (c : Char) : Option ℕ :=
  if isHexDigit c then some (hexVal c) else none

/-- Digit tail of a hex literal: single underscores are allowed between
digits, never doubled, leading or trailing (Python literal grammar). -/
def hexSeqVal : List Char → ℕ → Option ℕ
  | [], acc => some acc
  | c :: rest, acc =>
    if c = '_' then
      match rest with
      | [] => none
      | c2 :: rest2 =>
        match hexDigitVal? c2 with
        | some d => hexSeqVal rest2 (16 * acc + d)
        | none => none
    else
      match hexDigitVal? c with
      | some d => hexSeqVal rest (16 * acc + d)
      | none => none

/-- A nonempty digit sequence (first char must be a digit). -/
def startDigits : List Char → Option ℕ
  | [] => none
  | c :: rest =>
    match hexDigitVal? c with
    | some d => hexSeqVal rest d
    | none => none

/-- After a `0x`/`0X` prefix one underscore may separate prefix and digits. -/
def parsePrefixTail : List Char → Option ℕ
  | '_' :: rest => startDigits rest
  | l => startDigits l

/-- Magnitude of a hex literal: optional `0x`/`0X` prefix, then digits. -/
def parseMag (l : List Char) : Option ℕ :=
  match l with
  | c0 :: c1 :: rest =>
    if c0 = '0' ∧ (c1 = 'x' ∨ c1 = 'X') then parsePrefixTail rest
    else startDigits l
  | _ => startDigits l

/-- Python `int(s, 16)`: strip ASCII whitespace, optional sign, optional
`0x` prefix, then hex digits with underscore separators.  `none` models a
raised `ValueError`. -/
def pyIntHex (s : String) : Option ℤ :=
  let l := ((s.data.dropWhile isPySpace).reverse.dropWhile isPySpace).reverse
  match l with
  | [] => none
  | c :: rest =>
    if c = '+' then (parseMag rest).map (fun n => (n : ℤ))
    else if c = '-' then (parseMag rest).map (fun n => -(n : ℤ))
    else (parseMag l).map (fun n => (n : ℤ))

/-- Python `h.lstrip("#")`: drops every leading `'#'`. -/
def lstripHash (s : String) : List Char :=
  s.data.dropWhile (fun c => c = '#')

/-! ### `_rgb`, `pbr`, `_apply_mat` (source lines 33–62) -/

/-- `_rgb(h)`: strip leading `'#'`s, then `int(h[i:i+2], 16) / 255.0` for
`i = 0, 2, 4`.  A slice that fails to parse raises (`none`). -/
def _rgb (s : String) : Option (List ℚ) :=
  let h := lstripHash s
  match pyIntHex ⟨h.take 2⟩, pyIntHex ⟨(h.drop 2).take 2⟩,
      pyIntHex ⟨(h.drop 4).take 2⟩ with
  | some a, some b, some c => some [(a : ℚ) / 255, (b : ℚ) / 255, (c : ℚ) / 255]
  | _, _, _ => none

/-- PBR material descriptor as produced by `pbr` (the fields the claims
concern: base colour RGBA, metallic, roughness). -/
structure Material where
  baseColorFactor : List ℚ
  metallicFactor : ℚ
  roughnessFactor : ℚ
deriving DecidableEq, Repr

/-- Default of the `metallic` parameter in `pbr`'s signature (line 38). -/
def pbrDefMetallic : ℚ := 0.55

/-- Default of the `rough` parameter in `pbr`'s signature (line 38). -/
def pbrDefRough : ℚ := 0.28

/-- `pbr(color, metallic, rough)`: resolves the colour token and builds the
material `[*_rgb(color), 1.0]` with the given factors. -/
def pbr (color : String) (metallic rough : ℚ) : Option Material :=
  match _rgb color with
  | some rgb => some ⟨rgb ++ [1], metallic, rough⟩
  | none => none

/-- `_apply_mat(mesh, color, mt, ro)`: forwards `mt` / `ro` to `pbr` only
when given, so an omitted override falls back to `pbr`'s signature
defaults. -/
def _apply_mat (c : String) (mt ro : Option ℚ) : Option Material :=
  pbr c (mt.getD pbrDefMetallic) (ro.getD pbrDefRough)

/-! ### Geometry: points, rotations, transform steps (source lines 76–112)

`trimesh.transformations.rotation_matrix(θ, axis)` is the right-handed
rotation about the given coordinate axis; the builders then
`apply_transform` / `apply_translation` the mesh in place.  A mesh is
represented by its vertex list, a transform by the list of steps applied
to it in program order. -/

/-- A point of the scene, (x, y, z). -/
abbrev V3 := ℚ × ℚ × ℚ

/-- Right-handed rotation about the Z axis, angle given as (cos, sin). -/
def rotZpt (c s : ℚ) (p : V3) : V3 :=
  (c * p.1 - s * p.2.1, s * p.1 + c * p.2.1, p.2.2)

/-- Right-handed rotation about the Y axis, angle given as (cos, sin). -/
def rotYpt (c s : ℚ) (p : V3) : V3 :=
  (c * p.1 + s * p.2.2, p.2.1, -s * p.1 + c * p.2.2)

/-- Right-handed rotation about the X axis, angle given as (cos, sin). -/
def rotXpt (c s : ℚ) (p : V3) : V3 :=
  (p.1, c * p.2.1 - s * p.2.2, s * p.2.1 + c * p.2.2)

/-- Translation by (x, y, z) (`apply_translation`). -/
def trpt (x y z : ℚ) (p : V3) : V3 := (p.1 + x, p.2.1 + y, p.2.2 + z)

/-- One `apply_transform` / `apply_translation` call. -/
inductive Step where
  | rz : ℚ → ℚ → Step
  | ry : ℚ → ℚ → Step
  | rx : ℚ → ℚ → Step
  | tr : ℚ → ℚ → ℚ → Step
deriving DecidableEq

def applyStep : Step → V3 → V3
  | .rz c s => rotZpt c s
  | .ry c s => rotYpt c s
  | .rx c s => rotXpt c s
  | .tr x y z => trpt x y z

/-- Steps applied in program order (first list element first). -/
def applySteps (l : List Step) (p : V3) : V3 :=
  l.foldl (fun q st => applyStep st q) p

/-- Local geometry of a part, carrying the builder parameters:
`box(w, h, d)` or `cylinder(radius, height, sections, axis)`. -/
inductive Prim where
  | box : ℚ → ℚ → ℚ → Prim
  | cyl : ℚ → ℚ → ℕ → String → Prim
deriving DecidableEq

/-- A placed, materialized part as produced by one builder call. -/
structure ScenePart where
  prim : Prim
  steps : List Step
  color : String
  mt : Option ℚ
  ro : Option ℚ
  mat : Material
deriving DecidableEq

/-- Centre of a part: the image of the local origin under its transform. -/
def ScenePart.center (p : ScenePart) : V3 := applySteps p.steps (0, 0, 0)

/-- Vertices of `trimesh.creation.box(extents=[w, h, d])`: the unit cube
centred at the origin, scaled per axis. -/
def boxVerts (w h d : ℚ) : List V3 :=
  [(-w / 2, -h / 2, -d / 2), (-w / 2, -h / 2, d / 2),
   (-w / 2, h / 2, -d / 2), (-w / 2, h / 2, d / 2),
   (w / 2, -h / 2, -d / 2), (w / 2, -h / 2, d / 2),
   (w / 2, h / 2, -d / 2), (w / 2, h / 2, d / 2)]

/-- The two endpoints of the native cylinder's long axis:
`trimesh.creation.cylinder` builds it centred at the origin with the long
axis along Z, spanning z ∈ [-h/2, h/2]. -/
def cylAxisEnds (h : ℚ) : V3 × V3 := ((0, 0, -(h / 2)), (0, 0, h / 2))

/-- Helper: the step list contributed by one optional rotation argument. -/
def optRotSteps (mk : ℚ → ℚ → Step) : Option (ℚ × ℚ) → List Step
  | none => []
  | some cs => [mk cs.1 cs.2]

/-- `bx(w, h, d, x, y, z, c, rx, ry, rz, mt, ro)` (source lines 76–92):
box, rotated `rz` then `ry` then `rx` (each optional), then translated to
(x, y, z), then materialized.  The only fallible step is the colour
resolution inside `_apply_mat`; the geometry itself is built
unconditionally (no dimension validation exists in the source, and the
external mesh library is a black box modelled as total). -/
def bx (w h d x y z : ℚ) (c : String) (rx ry rz : Option (ℚ × ℚ))
    (mt ro : Option ℚ) : Option ScenePart :=
  match _apply_mat c mt ro with
  | none => none
  | some m =>
    some ⟨Prim.box w h d,
      optRotSteps Step.rz rz ++ optRotSteps Step.ry ry ++
        optRotSteps Step.rx rx ++ [Step.tr x y z],
      c, mt, ro, m⟩

/-- `cy(r, h, x, y, z, c, segs, axis, mt, ro)` (source lines 95–112): the
native Z-axis cylinder is remapped by a fixed table — `axis='y'` rotates
π/2 (cos 0, sin 1) about X, `axis='x'` rotates π/2 about Y, anything else
keeps it as-is — then translated and materialized. -/
def cy (r h x y z : ℚ) (c : String) (segs : ℕ) (axis : String)
    (mt ro : Option ℚ) : Option ScenePart :=
  match _apply_mat c mt ro with
  | none => none
  | some m =>
    some ⟨Prim.cyl r h segs axis,
      (if axis = "y" then [Step.rx 0 1]
       else if axis = "x" then [Step.ry 0 1]
       else []) ++ [Step.tr x y z],
      c, mt, ro, m⟩

/-! ### Colour and preset constants (source lines 207–243) -/

def C_TRIM : String := "#d0d4d8"
def C_LAMP_OFF : String := "#1a1a1a"
def C_LED_GREEN : String := "#22c55e"
def C_FOUP_SHELL : String := "#8b6538"
def C_FOUP_DOOR : String := "#7a5830"
def C_FOUP_RECESS : String := "#5a4020"
def C_FOUP_HANDLE : String := "#3a4a5a"
def C_FOUP_LABEL : String := "#f5f5f5"

/-- Preset `_BRS = dict(mt=0.82, ro=0.28)` (brushed steel). -/
def _BRS : ℚ × ℚ := (0.82, 0.28)

/-- Preset `_LED = dict(mt=0.02, ro=0.45)` (indicator LED). -/
def _LED : ℚ × ℚ := (0.02, 0.45)

/-! ### Assemblies (source lines 133–185 and 307–325) -/

/-- FOUP depth constant `FD = 0.26` inside `_foup` (X extent of the
shell). -/
def FD : ℚ := 0.26

/-- `_foup(px, py, pz, face_sgn, fh, fw)` (source lines 133–185): shell,
door (offset `face_sgn * (FD/2 + 0.005)` in X), recess frame, handle bar,
two handle stubs, label, latch indicator — in this order. -/
def _foup (px py pz face_sgn fh fw : ℚ) : Option (List ScenePart) := do
  let shell ← bx FD fh fw px py pz C_FOUP_SHELL none none none
    (some 0.05) (some 0.60)
  let door_x := px + face_sgn * (FD / 2 + 0.005)
  let door ← bx 0.012 (fh * 0.86) (fw * 0.82) door_x py pz C_FOUP_DOOR
    none none none (some 0.05) (some 0.55)
  let recess ← bx 0.006 (fh * 0.90) (fw * 0.88) (door_x - face_sgn * 0.004)
    py pz C_FOUP_RECESS none none none (some 0.55) (some 0.40)
  let handle ← bx (FD * 0.32) 0.048 (fw * 0.50) px (py + fh / 2 + 0.024) pz
    C_FOUP_HANDLE none none none (some 0.85) (some 0.28)
  let stub1 ← bx (FD * 0.10) 0.030 0.018 px (py + fh / 2 + 0.005)
    (pz + -(fw * 0.14)) C_FOUP_HANDLE none none none (some 0.85) (some 0.28)
  let stub2 ← bx (FD * 0.10) 0.030 0.018 px (py + fh / 2 + 0.005)
    (pz + fw * 0.14) C_FOUP_HANDLE none none none (some 0.85) (some 0.28)
  let label ← bx 0.007 (fh * 0.22) (fw * 0.44) (door_x + face_sgn * 0.004)
    (py + fh * 0.10) pz C_FOUP_LABEL none none none (some 0.02) (some 0.80)
  let led ← bx 0.007 0.030 0.030 (door_x + face_sgn * 0.004)
    (py - fh * 0.28) pz C_LED_GREEN none none none (some 0.02) (some 0.40)
  pure [shell, door, recess, handle, stub1, stub2, label, led]

/-- `_signal_tower(x, z, pole_y, pole_h, y_green, pole_r, lamp_r, lamp_h)`
(source lines 307–325): one pole cylinder plus three lamp cylinders at
`y_green`, `y_green + 0.15`, `y_green + 0.30`, all in `C_LAMP_OFF`. -/
def _signal_tower (x z pole_y pole_h y_green pole_r lamp_r lamp_h : ℚ) :
    Option (List ScenePart) := do
  let pole ← cy pole_r pole_h x pole_y z C_TRIM 8 "y"
    (some _BRS.1) (some _BRS.2)
  let lampG ← cy lamp_r lamp_h x y_green z C_LAMP_OFF 8 "y"
    (some _LED.1) (some _LED.2)
  let lampY ← cy lamp_r lamp_h x (y_green + 0.15) z C_LAMP_OFF 8 "y"
    (some _LED.1) (some _LED.2)
  let lampR ← cy lamp_r lamp_h x (y_green + 0.30) z C_LAMP_OFF 8 "y"
    (some _LED.1) (some _LED.2)
  pure [pole, lampG, lampY, lampR]

/-! ### Scene assembly and part ids (source lines 67–73, 188–192, 674–690)

`_uid()` increments a counter and renders it as `f"p{n:05d}"`;
`build_scene` names each part with the next id; `main` resets the counter
to 0 before building each model.  The decimal rendering is embedded with a
fuel-based digit function so that it evaluates by kernel reduction. -/

/-- Little-endian base-10 digits of `n` (`fuel ≥ n` suffices; `0 ↦ []`). -/
def toDigitsLE (fuel n : ℕ) : List ℕ :=
  match fuel, n with
  | _, 0 => []
  | 0, _ => []
  | f + 1, m + 1 => (m + 1) % 10 :: toDigitsLE f ((m + 1) / 10)

/-- Value of a little-endian base-10 digit list. -/
def valLE : List ℕ → ℕ
  | [] => 0
  | d :: t => d + 10 * valLE t

/-- ASCII character of a decimal digit. -/
def digitChar (d : ℕ) : Char := Char.ofNat (48 + d)

/-- The digit list rendered by Python `f"{n:05d}"`: big-endian digits of
`n`, left-padded with zeros to at least width 5 (`0` renders as five
zeros, numbers of six or more digits are not truncated). -/
def padded5 (n : ℕ) : List ℕ :=
  List.replicate (5 - (toDigitsLE n n).length) 0 ++ (toDigitsLE n n).reverse

/-- `f"p{n:05d}"`. -/
def uidStr (n : ℕ) : String := ⟨'p' :: (padded5 n).map digitChar⟩

/-- Decode a rendered id back to its counter value (drop the `'p'`, read
the decimal digits).  Used to state injectivity/monotonicity of ids. -/
def uidVal (s : String) : ℕ :=
  valLE (((s.data.drop 1).map (fun c => c.toNat - 48)).reverse)

/-- `_uid()` on counter state `c`: the bumped counter and the new id. -/
def _uid (c : ℕ) : ℕ × String := (c + 1, uidStr (c + 1))

/-- `build_scene(parts)`: adds each part under the next fresh id, threading
the global counter.  Returns the named scene and the final counter. -/
def build_scene : List ScenePart → ℕ → List (String × ScenePart) × ℕ
  | [], c => ([], c)
  | m :: ms, c =>
    let u := _uid c
    let r := build_scene ms u.1
    ((u.2, m) :: r.1, r.2)

/-- The id column of a scene built from counter 0 (as `main` does). -/
def sceneIds (ps : List ScenePart) : List String :=
  ((build_scene ps 0).1).map Prod.fst

/-- The per-model loop of `main`: before each model the global counter is
reset to 0 (`_part_counter = 0`), so the incoming counter value is
discarded. -/
def runModels : ℕ → List (List ScenePart) → List (List (String × ScenePart))
  | _, [] => []
  | _, m :: ms =>
    let s := build_scene m 0
    s.1 :: runModels s.2 ms

/-! ### Spec-side definitions -/

/-- Modelled from the spec: a valid colour token is exactly 6 hexadecimal
digits with an optional leading `'#'` (spec §4.1 / §8).  This is the
spec's validity notion, stated to compare against `_rgb`'s behaviour. -/
def isHex6Token (s : String) : Bool :=
  let l := if s.data.head? = some '#' then s.data.tail else s.data
  l.length == 6 && l.all isHexDigit

/-- Modelled from the spec (§4.2): the claimed box transform
`translate(x,y,z) ∘ Rx(rx) ∘ Ry(ry) ∘ Rz(rz)`, each rotation skipped when
omitted. -/
def optApplyRot (f : ℚ → ℚ → V3 → V3) : Option (ℚ × ℚ) → V3 → V3
  | none, p => p
  | some cs, p => f cs.1 cs.2 p

def specBoxTransform (x y z : ℚ) (rx ry rz : Option (ℚ × ℚ)) (p : V3) : V3 :=
  trpt x y z (optApplyRot rotXpt rx (optApplyRot rotYpt ry (optApplyRot rotZpt rz p)))

/-- A sample part used by concrete witnesses. -/
def P0 : ScenePart :=
  ⟨Prim.box 1 1 1, [Step.tr 0 0 0], "#607080", none, none, ⟨[1, 1, 1, 1], 1, 1⟩⟩

/-- Evaluation helper: once the three slice parses are computed (they are
pure `Char`/`Nat` computations, so `decide` handles them), `_rgb`
reduces. -/
theorem _rgb_eval (s : String) (a b c : ℤ)
    (h1 : pyIntHex ⟨(lstripHash s).take 2⟩ = some a)
    (h2 : pyIntHex ⟨((lstripHash s).drop 2).take 2⟩ = some b)
    (h3 : pyIntHex ⟨((lstripHash s).drop 4).take 2⟩ = some c) :
    _rgb s = some [(a : ℚ) / 255, (b : ℚ) / 255, (c : ℚ) / 255] := by
  simp only [_rgb, h1, h2, h3]

/-! Sanity checks on the colour resolver. -/

example : _rgb "#FFFFFF" = some [255 / 255, 255 / 255, 255 / 255] :=
  _rgb_eval _ 255 255 255 (by decide) (by decide) (by decide)
example : _rgb "xyz" = none := by decide
example : _rgb "#1234" = none := by decide

/-! Decode/roundtrip lemmas for the id rendering. -/

theorem valLE_toDigitsLE : ∀ fuel n, n ≤ fuel → valLE (toDigitsLE fuel n) = n := by
  intro fuel
  induction fuel with
  | zero => intro n hn; interval_cases n; rfl
  | succ f ih =>
    intro n hn
    match n with
    | 0 => rfl
    | m + 1 =>
      have hdiv : (m + 1) / 10 ≤ f := by
        have := Nat.div_lt_self (Nat.succ_pos m) (by norm_num : (1:ℕ) < 10)
        omega
      simp only [toDigitsLE, valLE, ih _ hdiv]
      omega

theorem toDigitsLE_lt : ∀ fuel n d, d ∈ toDigitsLE fuel n → d < 10 := by
  intro fuel
  induction fuel with
  | zero => intro n d hd; match n with
    | 0 => simp [toDigitsLE] at hd
    | m + 1 => simp [toDigitsLE] at hd
  | succ f ih =>
    intro n d hd
    match n with
    | 0 => simp [toDigitsLE] at hd
    | m + 1 =>
      simp only [toDigitsLE, List.mem_cons] at hd
      rcases hd with h | h
      · have := Nat.mod_lt (m + 1) (show 0 < 10 by norm_num)
        omega
      · exact ih _ _ h

theorem valLE_append_zeros : ∀ (l : List ℕ) (k : ℕ),
    valLE (l ++ List.replicate k 0) = valLE l := by
  intro l
  induction l with
  | nil =>
    intro k
    induction k with
    | zero => rfl
    | succ k ih => simpa [List.replicate_succ, valLE] using ih
  | cons d t ih => intro k; simp [valLE, ih]

theorem charVal_digitChar : ∀ d, d < 10 → (digitChar d).toNat - 48 = d := by decide

theorem data_mk (l : List Char) : (String.mk l).data = l := rfl

/-- Roundtrip: decoding a rendered id recovers the counter value. -/
theorem uidVal_uidStr (n : ℕ) : uidVal (uidStr n) = n := by
  have hlt : ∀ d ∈ padded5 n, d < 10 := by
    intro d hd
    simp only [padded5, List.mem_append, List.mem_replicate, List.mem_reverse] at hd
    rcases hd with h | h
    · omega
    · exact toDigitsLE_lt n n d h
  have hmap : ((padded5 n).map digitChar).map (fun c => c.toNat - 48) = padded5 n := by
    rw [List.map_map]
    have : ∀ d ∈ padded5 n, ((fun c => c.toNat - 48) ∘ digitChar) d = id d := by
      intro d hd
      simpa using charVal_digitChar d (hlt d hd)
    rw [List.map_congr_left this, List.map_id]
  simp only [uidVal, uidStr, data_mk, List.drop_succ_cons, List.drop_zero]
  rw [hmap]
  simp only [padded5, List.reverse_append, List.reverse_reverse,
    List.reverse_replicate]
  rw [valLE_append_zeros]
  exact valLE_toDigitsLE n n le_rfl

/-- Id rendering is injective (hence ids never repeat). -/
theorem uidStr_injective : Function.Injective uidStr :=
  Function.LeftInverse.injective uidVal_uidStr

example : uidStr 1 = "p00001" := by decide
example : uidStr 12 = "p00012" := by decide
example : uidStr 123456 = "p123456" := by decide

/-! ### Character-level helper lemmas -/

theorem isHexDigit_ranges {c : Char} (h : isHexDigit c = true) :
    (48 ≤ c.toNat ∧ c.toNat ≤ 57) ∨ (97 ≤ c.toNat ∧ c.toNat ≤ 102) ∨
      (65 ≤ c.toNat ∧ c.toNat ≤ 70) := by
  simpa [isHexDigit] using h

theorem hex_not_special {c : Char} (h : isHexDigit c = true) :
    c ≠ '#' ∧ c ≠ '+' ∧ c ≠ '-' ∧ c ≠ '_' ∧ c ≠ 'x' ∧ c ≠ 'X' := by
  refine ⟨?_, ?_, ?_, ?_, ?_, ?_⟩ <;> (rintro rfl; exact absurd h (by decide))

theorem isPySpace_of_hex {c : Char} (h : isHexDigit c = true) :
    isPySpace c = false := by
  have hr := isHexDigit_ranges h
  simp only [isPySpace, decide_eq_false_iff_not]
  omega

theorem hexVal_lt {c : Char} (h : isHexDigit c = true) : hexVal c < 16 := by
  have hr := isHexDigit_ranges h
  simp only [hexVal]
  split_ifs <;> omega

/-- Stripping whitespace from a space-free list is the identity. -/
theorem strip_nop {l : List Char} (h : ∀ c ∈ l, isPySpace c = false) :
    ((l.dropWhile isPySpace).reverse.dropWhile isPySpace).reverse = l := by
  cases l with
  | nil => rfl
  | cons c t =>
    rw [List.dropWhile_cons, if_neg (by simp [h c (List.mem_cons_self c t)])]
    cases hrev : (c :: t).reverse with
    | nil => exact absurd hrev (by simp)
    | cons d u =>
      have hd : d ∈ c :: t := by
        have hmem : d ∈ (c :: t).reverse := by
          rw [hrev]; exact List.mem_cons_self d u
        exact List.mem_reverse.mp hmem
      rw [List.dropWhile_cons, if_neg (by simp [h d hd]), ← hrev,
        List.reverse_reverse]

/-- Python `int` of a two-hex-digit string. -/
theorem pyIntHex_hex_pair {a b : Char} (ha : isHexDigit a = true)
    (hb : isHexDigit b = true) :
    pyIntHex ⟨[a, b]⟩ = some ((16 * hexVal a + hexVal b : ℕ) : ℤ) := by
  obtain ⟨-, ha2, ha3, -, -, -⟩ := hex_not_special ha
  obtain ⟨-, -, -, hb4, hb5, hb6⟩ := hex_not_special hb
  have hstrip : ((([a, b]).dropWhile isPySpace).reverse.dropWhile
      isPySpace).reverse = [a, b] := by
    refine strip_nop ?_
    intro c hc
    simp only [List.mem_cons, List.not_mem_nil, or_false] at hc
    rcases hc with rfl | rfl
    · exact isPySpace_of_hex ha
    · exact isPySpace_of_hex hb
  simp only [pyIntHex, data_mk, hstrip]
  rw [if_neg ha2, if_neg ha3]
  simp only [parseMag]
  rw [if_neg (by rintro ⟨-, h | h⟩; exacts [hb5 h, hb6 h])]
  simp only [startDigits, hexDigitVal?, ha, if_true, hexSeqVal]
  rw [if_neg hb4]
  simp [hexDigitVal?, hb]

/-- `lstrip("#")` does not touch a list of hex digits. -/
theorem dropWhile_hash_of_hex {l : List Char}
    (h : ∀ c ∈ l, isHexDigit c = true) :
    l.dropWhile (fun c => c = '#') = l := by
  cases l with
  | nil => rfl
  | cons c t =>
    rw [List.dropWhile_cons,
      if_neg (by simp [(hex_not_special (h c (List.mem_cons_self c t))).1])]

/-- A byte-sized channel value divided by 255 lies in [0, 1]. -/
theorem channel_bounds (v : ℕ) (h : v ≤ 255) :
    0 ≤ ((v : ℤ) : ℚ) / 255 ∧ ((v : ℤ) : ℚ) / 255 ≤ 1 := by
  constructor
  · positivity
  · rw [div_le_one (by norm_num)]
    exact_mod_cast h

/-- Core of the valid-token direction: a 6-hex-digit stripped token yields
three channels, each the value of one hex pair over 255. -/
theorem rgb_of_hex6 {s : String} {L : List Char} (hL : lstripHash s = L)
    (hlen : L.length = 6) (hhex : ∀ c ∈ L, isHexDigit c = true) :
    ∃ r g b, _rgb s = some [r, g, b] ∧
      0 ≤ r ∧ r ≤ 1 ∧ 0 ≤ g ∧ g ≤ 1 ∧ 0 ≤ b ∧ b ≤ 1 := by
  rcases L with - | ⟨c1, - | ⟨c2, - | ⟨c3, - | ⟨c4, - | ⟨c5, - | ⟨c6, rest⟩⟩⟩⟩⟩⟩ <;>
    simp only [List.length] at hlen
  · omega
  · omega
  · omega
  · omega
  · omega
  · omega
  obtain rfl : rest = [] := by
    cases rest with
    | nil => rfl
    | cons x xs => simp at hlen
  have h1 : isHexDigit c1 = true := hhex c1 (by simp)
  have h2 : isHexDigit c2 = true := hhex c2 (by simp)
  have h3 : isHexDigit c3 = true := hhex c3 (by simp)
  have h4 : isHexDigit c4 = true := hhex c4 (by simp)
  have h5 : isHexDigit c5 = true := hhex c5 (by simp)
  have h6 : isHexDigit c6 = true := hhex c6 (by simp)
  have e1 : pyIntHex ⟨(lstripHash s).take 2⟩ =
      some ((16 * hexVal c1 + hexVal c2 : ℕ) : ℤ) := by
    rw [hL]; exact pyIntHex_hex_pair h1 h2
  have e2 : pyIntHex ⟨((lstripHash s).drop 2).take 2⟩ =
      some ((16 * hexVal c3 + hexVal c4 : ℕ) : ℤ) := by
    rw [hL]; exact pyIntHex_hex_pair h3 h4
  have e3 : pyIntHex ⟨((lstripHash s).drop 4).take 2⟩ =
      some ((16 * hexVal c5 + hexVal c6 : ℕ) : ℤ) := by
    rw [hL]; exact pyIntHex_hex_pair h5 h6
  have b1 := channel_bounds (16 * hexVal c1 + hexVal c2)
    (by have := hexVal_lt h1; have := hexVal_lt h2; omega)
  have b2 := channel_bounds (16 * hexVal c3 + hexVal c4)
    (by have := hexVal_lt h3; have := hexVal_lt h4; omega)
  have b3 := channel_bounds (16 * hexVal c5 + hexVal c6)
    (by have := hexVal_lt h5; have := hexVal_lt h6; omega)
  exact ⟨_, _, _, _rgb_eval s _ _ _ e1 e2 e3,
    b1.1, b1.2, b2.1, b2.2, b3.1, b3.2⟩

/-- Evaluation helper for `_apply_mat` on a concrete colour token. -/
theorem apply_mat_eval (s : String) (a b c : ℤ) (mt ro : Option ℚ)
    (h1 : pyIntHex ⟨(lstripHash s).take 2⟩ = some a)
    (h2 : pyIntHex ⟨((lstripHash s).drop 2).take 2⟩ = some b)
    (h3 : pyIntHex ⟨((lstripHash s).drop 4).take 2⟩ = some c) :
    _apply_mat s mt ro =
      some ⟨[(a : ℚ) / 255, (b : ℚ) / 255, (c : ℚ) / 255, 1],
        mt.getD pbrDefMetallic, ro.getD pbrDefRough⟩ := by
  simp only [_apply_mat, pbr, _rgb_eval s a b c h1 h2 h3, List.cons_append,
    List.nil_append]

/-! ### Claim theorems -/

/-- C1: the spec (and the function's own docstring) state that omitting the
metallic/roughness overrides yields the brushed-steel preset
(metallic 0.82, roughness 0.28).  The code's actual signature default is
`metallic = 0.55`: evaluating the resolver at the failing input (any
colour, both overrides omitted) yields metallic 0.55 ≠ 0.82, while
roughness 0.28 does match.  The code contradicts its own documentation. -/
theorem material_default_metallic_is_055 :
    _apply_mat "#607080" none none =
      some ⟨[96 / 255, 112 / 255, 128 / 255, 1], 55 / 100, 28 / 100⟩ ∧
    (55 : ℚ) / 100 ≠ 82 / 100 ∧ pbrDefMetallic = 55 / 100 ∧
    pbrDefRough = 28 / 100 := by
  refine ⟨?_, by norm_num, by norm_num [pbrDefMetallic], by norm_num [pbrDefRough]⟩
  rw [apply_mat_eval "#607080" 96 112 128 none none
    (by decide) (by decide) (by decide)]
  simp only [Option.getD_none, Option.some.injEq, Material.mk.injEq]
  norm_num [pbrDefMetallic, pbrDefRough]

/-- C4 counterexample: `"AABBCCDD"` is not a valid 6-hex-digit token, yet
the resolver accepts it (the slices `[0:2]`, `[2:4]`, `[4:6]` only read
the first six characters), so the resolver does not fail on every invalid
token. -/
theorem color_long_token_accepted :
    isHex6Token "AABBCCDD" = false ∧
    _rgb "AABBCCDD" = some [(170 : ℚ) / 255, 187 / 255, 204 / 255] := by
  refine ⟨by decide, ?_⟩
  have h := _rgb_eval "AABBCCDD" 170 187 204 (by decide) (by decide) (by decide)
  simpa using h

/-- C4 (amended): for every valid token (exactly 6 hex digits, optional
leading `'#'`) the resolver returns three channel values, each in [0, 1].
(The failure half of the original claim is refuted by
`color_long_token_accepted`.) -/
theorem color_valid_token_in_range (s : String) (hv : isHex6Token s = true) :
    ∃ r g b, _rgb s = some [r, g, b] ∧
      0 ≤ r ∧ r ≤ 1 ∧ 0 ≤ g ∧ g ≤ 1 ∧ 0 ≤ b ∧ b ≤ 1 := by
  simp only [isHex6Token, Bool.and_eq_true, beq_iff_eq, List.all_eq_true] at hv
  by_cases hh : s.data.head? = some '#'
  · rw [if_pos hh] at hv
    obtain ⟨hlen, hhex⟩ := hv
    have hhex' : ∀ c ∈ s.data.tail, isHexDigit c = true := by
      intro c hc; simpa using hhex c hc
    have hL : lstripHash s = s.data.tail := by
      cases hdata : s.data with
      | nil => simp [hdata] at hh
      | cons c t =>
        have hc : c = '#' := by simp [hdata] at hh; exact hh
        subst hc
        have ht : ∀ c ∈ t, isHexDigit c = true := by
          intro c hcm; exact hhex' c (by simp [hdata, hcm])
        simp only [lstripHash, hdata, List.tail_cons, List.dropWhile_cons]
        rw [if_pos (by decide)]
        exact dropWhile_hash_of_hex ht
    exact rgb_of_hex6 hL hlen hhex'
  · rw [if_neg hh] at hv
    obtain ⟨hlen, hhex⟩ := hv
    have hhex' : ∀ c ∈ s.data, isHexDigit c = true := by
      intro c hc; simpa using hhex c hc
    have hL : lstripHash s = s.data := by
      cases hdata : s.data with
      | nil => simp [lstripHash, hdata]
      | cons c t =>
        have hc : isHexDigit c = true := hhex' c (by simp [hdata])
        simp only [lstripHash, hdata]
        exact dropWhile_hash_of_hex (by intro d hd; exact hhex' d (by simp [hdata, hd]))
    exact rgb_of_hex6 hL hlen hhex'

/-- C4 witness: `"#FFFFFF"` is a valid token and resolves to three
in-range channels (indeed to (1, 1, 1)). -/
theorem color_valid_token_in_range_witness :
    isHex6Token "#FFFFFF" = true ∧
    (∃ r g b, _rgb "#FFFFFF" = some [r, g, b] ∧
      0 ≤ r ∧ r ≤ 1 ∧ 0 ≤ g ∧ g ≤ 1 ∧ 0 ≤ b ∧ b ≤ 1) ∧
    _rgb "#FFFFFF" = some [1, 1, 1] := by
  refine ⟨by decide, color_valid_token_in_range "#FFFFFF" (by decide), ?_⟩
  have h := _rgb_eval "#FFFFFF" 255 255 255 (by decide) (by decide) (by decide)
  rw [h]
  norm_num

/-- C5 counterexample: an out-of-range metallic override (2 ∉ [0, 1]) is
not rejected — the material is built, with the value stored unchanged
(also not clamped).  No `InvalidMaterialParameter` check exists. -/
theorem material_out_of_range_accepted :
    _apply_mat "#607080" (some 2) (some (3 / 2)) =
      some ⟨[96 / 255, 112 / 255, 128 / 255, 1], 2, 3 / 2⟩ ∧
    ¬((2 : ℚ) ≤ 1) ∧ ¬((3 : ℚ) / 2 ≤ 1) := by
  refine ⟨?_, by norm_num, by norm_num⟩
  rw [apply_mat_eval "#607080" 96 112 128 (some 2) (some (3 / 2))
    (by decide) (by decide) (by decide)]
  simp

/-- C5 (amended): the material resolver performs no range validation at
all: for any override values whatsoever it succeeds exactly when the
colour resolves, and the overrides are stored unchanged (passed through,
neither rejected nor clamped). -/
theorem material_override_passthrough (c : String) (mt ro : ℚ) :
    (_apply_mat c (some mt) (some ro)).isSome = (_rgb c).isSome ∧
    ∀ m, _apply_mat c (some mt) (some ro) = some m →
      m.metallicFactor = mt ∧ m.roughnessFactor = ro := by
  unfold _apply_mat pbr
  cases h : _rgb c <;> simp [h, Option.getD]

/-- C5 witness: at colour `"#607080"` and overrides (2, 3/2) the resolver
succeeds and stores exactly those values. -/
theorem material_override_passthrough_witness :
    ∃ m, _apply_mat "#607080" (some 2) (some (3 / 2)) = some m ∧
      m.metallicFactor = 2 ∧ m.roughnessFactor = 3 / 2 := by
  have h := apply_mat_eval "#607080" 96 112 128 (some 2) (some (3 / 2))
    (by decide) (by decide) (by decide)
  exact ⟨_, h, (material_override_passthrough "#607080" 2 (3 / 2)).2 _ h⟩

/-- C3 counterexample: the builders accept degenerate inputs.  A box of
width 0 and a cylinder with negative radius, negative height and only 2
segments are all built successfully — no `DegenerateGeometry` failure
exists anywhere in the source. -/
theorem builders_accept_degenerate :
    (bx 0 1 1 0 0 0 "#607080" none none none none none).isSome = true ∧
    (cy (-1) (-1) 0 0 0 "#607080" 2 "y" none none).isSome = true := by
  have h := apply_mat_eval "#607080" 96 112 128 none none
    (by decide) (by decide) (by decide)
  constructor <;> simp [bx, cy, h]

/-- C3 (amended): the primitive builders perform no degeneracy validation:
for every input (any extents, radius, height, segment count), the builder
succeeds exactly when the colour token resolves — the geometry parameters
are never inspected. -/
theorem builders_no_validation (w h d x y z : ℚ) (c : String)
    (rx ry rz : Option (ℚ × ℚ)) (mt ro : Option ℚ)
    (r hcy : ℚ) (segs : ℕ) (axis : String) :
    (bx w h d x y z c rx ry rz mt ro).isSome = (_apply_mat c mt ro).isSome ∧
    (cy r hcy x y z c segs axis mt ro).isSome = (_apply_mat c mt ro).isSome := by
  unfold bx cy
  cases _apply_mat c mt ro <;> simp

/-- Componentwise extensionality for explicit points. -/
theorem v3_ext {a₁ a₂ a₃ b₁ b₂ b₃ : ℚ} (h₁ : a₁ = b₁) (h₂ : a₂ = b₂)
    (h₃ : a₃ = b₃) : ((a₁, a₂, a₃) : V3) = (b₁, b₂, b₃) := by
  subst h₁; subst h₂; subst h₃; rfl

/-- The sequential step list built by `bx` equals the composed spec
transform `translate ∘ Rx ∘ Ry ∘ Rz` pointwise. -/
theorem steps_eq_specBoxTransform (rx ry rz : Option (ℚ × ℚ)) (x y z : ℚ)
    (p : V3) :
    applySteps (optRotSteps Step.rz rz ++ optRotSteps Step.ry ry ++
      optRotSteps Step.rx rx ++ [Step.tr x y z]) p =
    specBoxTransform x y z rx ry rz p := by
  cases rx <;> cases ry <;> cases rz <;>
    simp [optRotSteps, applySteps, applyStep, specBoxTransform, optApplyRot]

/-- C6: every box part's transform is the optional rotations applied in
the fixed order rz, then ry, then rx, followed by exactly one translation
to (x, y, z): pointwise, and hence on the vertices of the origin-centred
box of extents (w, h, d), the part transform equals
`translate(x,y,z) ∘ Rx(rx) ∘ Ry(ry) ∘ Rz(rz)`. -/
theorem box_transform_order (w h d x y z : ℚ) (c : String)
    (rx ry rz : Option (ℚ × ℚ)) (mt ro : Option ℚ) (part : ScenePart)
    (hp : bx w h d x y z c rx ry rz mt ro = some part) :
    (∀ p, applySteps part.steps p = specBoxTransform x y z rx ry rz p) ∧
    (boxVerts w h d).map (applySteps part.steps) =
      (boxVerts w h d).map (specBoxTransform x y z rx ry rz) ∧
    part.prim = Prim.box w h d := by
  unfold bx at hp
  cases hm : _apply_mat c mt ro with
  | none => rw [hm] at hp; cases hp
  | some m =>
    rw [hm] at hp
    injection hp with hp
    subst hp
    refine ⟨fun p => steps_eq_specBoxTransform rx ry rz x y z p, ?_, rfl⟩
    exact List.map_congr_left fun p _ => steps_eq_specBoxTransform rx ry rz x y z p

/-- C6 witness: a concrete box with rz and rx rotations present. -/
theorem box_transform_order_witness :
    ∃ part, bx 1 2 3 4 5 6 "#607080" (some (0, 1)) none (some (1, 0))
        none none = some part ∧
      ∀ p, applySteps part.steps p =
        specBoxTransform 4 5 6 (some (0, 1)) none (some (1, 0)) p := by
  have hm := apply_mat_eval "#607080" 96 112 128 none none
    (by decide) (by decide) (by decide)
  have hsome : (bx 1 2 3 4 5 6 "#607080" (some (0, 1)) none (some (1, 0))
      none none).isSome = true := by simp [bx, hm]
  obtain ⟨part, hp⟩ := Option.isSome_iff_exists.mp hsome
  exact ⟨part, hp, (box_transform_order 1 2 3 4 5 6 "#607080" (some (0, 1))
    none (some (1, 0)) none none part hp).1⟩

/-- The image of a native-axis point (0, 0, t) under the three remap
transforms. -/
theorem applySteps_rx_tr (x y z t : ℚ) :
    applySteps [Step.rx 0 1, Step.tr x y z] (0, 0, t) = (x, y - t, z) := by
  show ((0 : ℚ) + x, (0 * 0 - 1 * t) + y, (1 * 0 + 0 * t) + z) = (x, y - t, z)
  exact v3_ext (by ring) (by ring) (by ring)

theorem applySteps_ry_tr (x y z t : ℚ) :
    applySteps [Step.ry 0 1, Step.tr x y z] (0, 0, t) = (x + t, y, z) := by
  show ((0 * 0 + 1 * t : ℚ) + x, (0 : ℚ) + y, (-1 * 0 + 0 * t) + z) = (x + t, y, z)
  exact v3_ext (by ring) (by ring) (by ring)

theorem applySteps_tr_only (x y z t : ℚ) :
    applySteps [Step.tr x y z] (0, 0, t) = (x, y, z + t) := by
  show ((0 : ℚ) + x, (0 : ℚ) + y, t + z) = (x, y, z + t)
  exact v3_ext (by ring) (by ring) (by ring)

/-- C7: the cylinder axis remap table.  `axis='y'` applies the π/2
rotation about X (native Z endpoints land on the global Y axis through
the part centre), `axis='x'` the π/2 rotation about Y (endpoints on
global X), `axis='z'` no rotation (endpoints stay on global Z); each
followed by the single translation to (x, y, z). -/
theorem cyl_axis_remap (r h x y z : ℚ) (c : String) (segs : ℕ)
    (mt ro : Option ℚ) :
    (∀ part, cy r h x y z c segs "y" mt ro = some part →
      part.steps = [Step.rx 0 1, Step.tr x y z] ∧
      applySteps part.steps (cylAxisEnds h).1 = (x, y + h / 2, z) ∧
      applySteps part.steps (cylAxisEnds h).2 = (x, y - h / 2, z)) ∧
    (∀ part, cy r h x y z c segs "x" mt ro = some part →
      part.steps = [Step.ry 0 1, Step.tr x y z] ∧
      applySteps part.steps (cylAxisEnds h).1 = (x - h / 2, y, z) ∧
      applySteps part.steps (cylAxisEnds h).2 = (x + h / 2, y, z)) ∧
    (∀ part, cy r h x y z c segs "z" mt ro = some part →
      part.steps = [Step.tr x y z] ∧
      applySteps part.steps (cylAxisEnds h).1 = (x, y, z - h / 2) ∧
      applySteps part.steps (cylAxisEnds h).2 = (x, y, z + h / 2)) := by
  refine ⟨?_, ?_, ?_⟩
  · intro part hp
    unfold cy at hp
    rw [if_pos rfl] at hp
    cases hm : _apply_mat c mt ro <;> rw [hm] at hp <;> cases hp
    refine ⟨rfl, ?_, ?_⟩
    · show applySteps [Step.rx 0 1, Step.tr x y z] (0, 0, -(h / 2)) =
        (x, y + h / 2, z)
      rw [applySteps_rx_tr]
      exact v3_ext (by ring) (by ring) (by ring)
    · show applySteps [Step.rx 0 1, Step.tr x y z] (0, 0, h / 2) =
        (x, y - h / 2, z)
      rw [applySteps_rx_tr]
  · intro part hp
    unfold cy at hp
    rw [if_neg (by decide), if_pos rfl] at hp
    cases hm : _apply_mat c mt ro <;> rw [hm] at hp <;> cases hp
    refine ⟨rfl, ?_, ?_⟩
    · show applySteps [Step.ry 0 1, Step.tr x y z] (0, 0, -(h / 2)) =
        (x - h / 2, y, z)
      rw [applySteps_ry_tr]
      exact v3_ext (by ring) (by ring) (by ring)
    · show applySteps [Step.ry 0 1, Step.tr x y z] (0, 0, h / 2) =
        (x + h / 2, y, z)
      rw [applySteps_ry_tr]
  · intro part hp
    unfold cy at hp
    rw [if_neg (by decide), if_neg (by decide)] at hp
    cases hm : _apply_mat c mt ro <;> rw [hm] at hp <;> cases hp
    refine ⟨rfl, ?_, ?_⟩
    · show applySteps [Step.tr x y z] (0, 0, -(h / 2)) = (x, y, z - h / 2)
      rw [applySteps_tr_only]
      exact v3_ext (by ring) (by ring) (by ring)
    · show applySteps [Step.tr x y z] (0, 0, h / 2) = (x, y, z + h / 2)
      rw [applySteps_tr_only]

/-- C7 witness: a concrete `axis='y'` cylinder. -/
theorem cyl_axis_remap_witness :
    ∃ part, cy 1 2 3 4 5 "#607080" 16 "y" none none = some part ∧
      part.steps = [Step.rx 0 1, Step.tr 3 4 5] ∧
      applySteps part.steps (cylAxisEnds 2).1 = (3, 4 + 2 / 2, 5) := by
  have hm := apply_mat_eval "#607080" 96 112 128 none none
    (by decide) (by decide) (by decide)
  have hsome : (cy 1 2 3 4 5 "#607080" 16 "y" none none).isSome = true := by
    simp [cy, hm]
  obtain ⟨part, hp⟩ := Option.isSome_iff_exists.mp hsome
  have h := (cyl_axis_remap 1 2 3 4 5 "#607080" 16 none none).1 part hp
  exact ⟨part, hp, h.1, h.2.1⟩

/-- C10: any axis string other than `"y"` and `"x"` — including `"z"` and
any unrecognized value — is silently treated like `"z"`: the builder
succeeds exactly when the colour resolves (no axis validation error), no
rotation step is emitted, and the native endpoints stay on the global Z
axis through the part centre. -/
theorem cyl_axis_fallback (axis : String) (hy : axis ≠ "y") (hx : axis ≠ "x")
    (r h x y z : ℚ) (c : String) (segs : ℕ) (mt ro : Option ℚ) :
    (cy r h x y z c segs axis mt ro).isSome = (_apply_mat c mt ro).isSome ∧
    ∀ part, cy r h x y z c segs axis mt ro = some part →
      part.steps = [Step.tr x y z] ∧
      applySteps part.steps (cylAxisEnds h).1 = (x, y, z - h / 2) ∧
      applySteps part.steps (cylAxisEnds h).2 = (x, y, z + h / 2) := by
  unfold cy
  rw [if_neg hy, if_neg hx]
  cases hm : _apply_mat c mt ro with
  | none => simp
  | some m =>
    refine ⟨by simp, ?_⟩
    intro part hp
    cases hp
    refine ⟨rfl, ?_, ?_⟩
    · show applySteps [Step.tr x y z] (0, 0, -(h / 2)) = (x, y, z - h / 2)
      rw [applySteps_tr_only]
      exact v3_ext (by ring) (by ring) (by ring)
    · show applySteps [Step.tr x y z] (0, 0, h / 2) = (x, y, z + h / 2)
      rw [applySteps_tr_only]

/-- C10 witness: axis `"qq"` (unrecognized) yields a translation-only
transform. -/
theorem cyl_axis_fallback_witness :
    ∃ part, cy 1 2 3 4 5 "#607080" 16 "qq" none none = some part ∧
      part.steps = [Step.tr 3 4 5] := by
  have hm := apply_mat_eval "#607080" 96 112 128 none none
    (by decide) (by decide) (by decide)
  have hsome : (cy 1 2 3 4 5 "#607080" 16 "qq" none none).isSome = true := by
    simp [cy, hm]
  obtain ⟨part, hp⟩ := Option.isSome_iff_exists.mp hsome
  exact ⟨part, hp, ((cyl_axis_fallback "qq" (by decide) (by decide)
    1 2 3 4 5 "#607080" 16 none none).2 part hp).1⟩

/-- Evaluation form of `cy` for the default `axis="y"` once the material
is known. -/
theorem cy_y_eval (r h x y z : ℚ) (c : String) (segs : ℕ) (mt ro : Option ℚ)
    (m : Material) (hm : _apply_mat c mt ro = some m) :
    cy r h x y z c segs "y" mt ro =
      some ⟨Prim.cyl r h segs "y", [Step.rx 0 1, Step.tr x y z], c, mt, ro, m⟩ := by
  unfold cy
  rw [hm, if_pos rfl]
  rfl

/-- Evaluation form of `bx` with no rotations once the material is known. -/
theorem bx_norot_eval (w h d x y z : ℚ) (c : String) (mt ro : Option ℚ)
    (m : Material) (hm : _apply_mat c mt ro = some m) :
    bx w h d x y z c none none none mt ro =
      some ⟨Prim.box w h d, [Step.tr x y z], c, mt, ro, m⟩ := by
  unfold bx
  rw [hm]
  rfl

/-- Centre of an `axis="y"` cylinder part: the translation target. -/
theorem steps_center_rx (x y z : ℚ) :
    applySteps [Step.rx 0 1, Step.tr x y z] (0, 0, 0) = (x, y, z) := by
  rw [applySteps_rx_tr]
  exact v3_ext rfl (by ring) rfl

/-- Centre of a translation-only part: the translation target. -/
theorem steps_center_tr (x y z : ℚ) :
    applySteps [Step.tr x y z] (0, 0, 0) = (x, y, z) := by
  rw [applySteps_tr_only]
  exact v3_ext rfl rfl (by ring)

/-- Ids of a scene built from counter `c`: `uidStr (c+1), uidStr (c+2), …`
in insertion order. -/
theorem build_scene_fst_map (ps : List ScenePart) : ∀ c : ℕ,
    ((build_scene ps c).1).map Prod.fst =
      (List.range ps.length).map (fun i => uidStr (c + 1 + i)) := by
  induction ps with
  | nil => intro c; rfl
  | cons p tl ih =>
    intro c
    have hr : (List.range (tl.length + 1)).map (fun i => uidStr (c + 1 + i)) =
        uidStr (c + 1) :: (List.range tl.length).map
          (fun i => uidStr (c + 1 + 1 + i)) := by
      rw [List.range_succ_eq_map, List.map_cons, List.map_map]
      exact congrArg₂ List.cons (congrArg uidStr (by omega))
        (List.map_congr_left fun i _ => congrArg uidStr (by omega))
    simp only [build_scene, _uid, List.map_cons, List.length_cons, hr]
    exact congrArg₂ List.cons rfl (ih (c + 1))

/-- C2: within one scene (built from a reset counter, as `main` does) the
part ids are `p00001, p00002, …` in insertion order; decoded values
strictly increase, so ids are unique; and because `main` resets the
counter before each model, building two models sequentially gives both
scenes the same first id `p00001`, whatever the counter held before. -/
theorem scene_part_ids (ps qs : List ScenePart) (c0 : ℕ) :
    sceneIds ps = (List.range ps.length).map (fun i => uidStr (i + 1)) ∧
    (sceneIds ps).Pairwise (fun a b => uidVal a < uidVal b) ∧
    (sceneIds ps).Nodup ∧
    uidStr 1 = "p00001" ∧ uidStr 2 = "p00002" ∧
    (ps ≠ [] → qs ≠ [] →
      (runModels c0 [ps, qs]).map (fun sc => (sc.map Prod.fst).head?) =
        [some "p00001", some "p00001"]) := by
  have heq : sceneIds ps = (List.range ps.length).map (fun i => uidStr (i + 1)) := by
    unfold sceneIds
    rw [build_scene_fst_map]
    exact List.map_congr_left fun i _ => congrArg uidStr (by omega)
  have hpw : (sceneIds ps).Pairwise (fun a b => uidVal a < uidVal b) := by
    rw [heq, List.pairwise_map]
    exact (List.pairwise_lt_range _).imp fun {a b} hab => by
      rw [uidVal_uidStr, uidVal_uidStr]; omega
  refine ⟨heq, hpw, ?_, by decide, by decide, ?_⟩
  · exact hpw.imp fun {a b} hab e => by rw [e] at hab; exact lt_irrefl _ hab
  · intro hps hqs
    obtain ⟨p, tl, rfl⟩ := List.exists_cons_of_ne_nil hps
    obtain ⟨q, tl', rfl⟩ := List.exists_cons_of_ne_nil hqs
    have h1 : uidStr 1 = "p00001" := by decide
    simp only [runModels, build_scene, _uid, List.map_cons, List.head?_cons]
    norm_num [h1]

/-- C2 witness: two concrete models built back to back, from a nonzero
prior counter value, both start at id `p00001`. -/
theorem scene_part_ids_witness :
    (runModels 7 [[P0], [P0, P0]]).map (fun sc => (sc.map Prod.fst).head?) =
      [some "p00001", some "p00001"] :=
  (scene_part_ids [P0] [P0, P0] 7).2.2.2.2.2
    (List.cons_ne_nil P0 []) (List.cons_ne_nil P0 [P0])

/-- C8: for every parameter choice the signal tower emits exactly 4 parts
— one pole cylinder and three lamp cylinders — the lamps' Y centres at
offsets 0, +0.15 and +0.30 above the supplied green-lamp height, and every
lamp in the dark off colour `C_LAMP_OFF = "#1a1a1a"`. -/
theorem signal_tower_shape (x z pole_y pole_h y_green pole_r lamp_r lamp_h : ℚ) :
    ∃ ps, _signal_tower x z pole_y pole_h y_green pole_r lamp_r lamp_h =
        some ps ∧
      ps.length = 4 ∧
      ps.map ScenePart.prim = [Prim.cyl pole_r pole_h 8 "y",
        Prim.cyl lamp_r lamp_h 8 "y", Prim.cyl lamp_r lamp_h 8 "y",
        Prim.cyl lamp_r lamp_h 8 "y"] ∧
      ps.map ScenePart.color = [C_TRIM, C_LAMP_OFF, C_LAMP_OFF, C_LAMP_OFF] ∧
      ps.map ScenePart.center = [(x, pole_y, z), (x, y_green, z),
        (x, y_green + 0.15, z), (x, y_green + 0.30, z)] ∧
      C_LAMP_OFF = "#1a1a1a" := by
  refine ⟨_, rfl, rfl, rfl, rfl, ?_, rfl⟩
  simp only [List.map_cons, List.map_nil]
  refine congrArg₂ List.cons ?_ (congrArg₂ List.cons ?_
    (congrArg₂ List.cons ?_ (congrArg₂ List.cons ?_ rfl)))
  · exact steps_center_rx x pole_y z
  · exact steps_center_rx x y_green z
  · exact steps_center_rx x (y_green + 0.15) z
  · exact steps_center_rx x (y_green + 0.30) z

/-- C9: the FOUP assembly's second emitted part is the door; with facing
sign +1 its centre sits at X offset `+(FD/2 + 0.005)` from the assembly
centre, with facing sign -1 at `-(FD/2 + 0.005)`, where `FD = 0.26` is
the X extent of the shell (the first emitted part, centred at the
assembly centre). -/
theorem foup_door_offset (px py pz fh fw : ℚ) :
    (∃ shell door rest,
      _foup px py pz 1 fh fw = some (shell :: door :: rest) ∧
      shell.prim = Prim.box FD fh fw ∧
      ScenePart.center shell = (px, py, pz) ∧
      ScenePart.center door = (px + (FD / 2 + 0.005), py, pz)) ∧
    (∃ shell door rest,
      _foup px py pz (-1) fh fw = some (shell :: door :: rest) ∧
      ScenePart.center door = (px - (FD / 2 + 0.005), py, pz)) ∧
    FD = 0.26 := by
  refine ⟨⟨_, _, _, rfl, rfl, steps_center_tr px py pz, ?_⟩,
    ⟨_, _, _, rfl, ?_⟩, rfl⟩
  · show applySteps [Step.tr (px + 1 * (FD / 2 + 0.005)) py pz] (0, 0, 0) =
      (px + (FD / 2 + 0.005), py, pz)
    rw [steps_center_tr]
    exact v3_ext (by ring) rfl rfl
  · show applySteps [Step.tr (px + -1 * (FD / 2 + 0.005)) py pz] (0, 0, 0) =
      (px - (FD / 2 + 0.005), py, pz)
    rw [steps_center_tr]
    exact v3_ext (by ring) rfl rfl
